import Mathlib

/-!
Shallow embedding of `Transcript_Fetcher.py` (class `YouTubeTranscriptFetcher`).

Pure string and list functions model the regex- and dict-based Python code;
Python dicts become association lists in insertion order, the filesystem is
modelled by explicit state records, and the network collaborators (the
transcript source and the oEmbed metadata source) are inputs to the
orchestration function.  Timed-caption offsets are embedded as natural-number
seconds: the source stores them as floats, but no claim verified here depends
on fractional seconds.
-/

set_option maxHeartbeats 1000000

/-! ## Character classes and Python string primitives -/

/-- ASCII whitespace as matched by Python's `\s` and stripped by `str.strip()`. -/
def isPySpace (c : Char) : Bool :=
  c = ' ' || c = '\t' || c = '\n' || c = '\r' || c = '\x0b' || c = '\x0c'

/-- The characters removed by `_sanitize_filename`'s character class `[<>:"/\\|?*]`. -/
def forbiddenChar (c : Char) : Bool :=
  c = '<' || c = '>' || c = ':' || c = '"' || c = '/' || c = '\\' || c = '|' || c = '?' || c = '*'

/-- The character class `[-\s]` collapsed by `_sanitize_filename`'s second substitution. -/
def dashOrSpace (c : Char) : Bool :=
  c = '-' || isPySpace c

/-- Python `str.strip()` on a character list: drop whitespace from both ends. -/
def stripList (l : List Char) : List Char :=
  ((l.dropWhile isPySpace).reverse.dropWhile isPySpace).reverse

/-- Python `str.strip()`. -/
def pyStrip (s : String) : String :=
  String.mk (stripList s.data)

/-- Worker for `re.sub(r'[-\s]+', '-', _)`: replace each maximal run of
dash-or-whitespace characters by a single dash.  The flag records whether the
scan is currently inside such a run. -/
def collapseAux : Bool → List Char → List Char
  | _, [] => []
  | inRun, c :: cs =>
    if dashOrSpace c then
      if inRun then collapseAux true cs else '-' :: collapseAux true cs
    else c :: collapseAux false cs

/-- `re.sub(r'[-\s]+', '-', l)`. -/
def collapseRuns (l : List Char) : List Char :=
  collapseAux false l

/-- `_sanitize_filename`: remove the forbidden path characters, then replace
runs of whitespace and dashes in the stripped result by single dashes. -/
def sanitize_filename (name : String) : String :=
  let removed := name.data.filter (fun c => !forbiddenChar c)
  String.mk (collapseRuns (stripList removed))

/-- No two adjacent dashes — the shape of `collapseRuns` output, used to show
sanitization is idempotent. -/
def noDoubleDash : List Char → Bool
  | a :: b :: t => !(a == '-' && b == '-') && noDoubleDash (b :: t)
  | _ => true

/-! ## Speaker extraction (`speaker_patterns`, `_extract_speaker_and_text`)

The four regexes are anchored at the start (`re.match`), their character
classes `[^x]+` cannot cross the closing delimiter, and the tail `(.+)$`
matches one or more non-newline characters, optionally followed by one final
newline (the semantics of `$` outside multiline mode).  Each regex therefore
has a unique possible decomposition, modelled by the functions below. -/

/-- Split at the first occurrence of `stop`: `some (before, after)` with the
`stop` character itself dropped; `none` when `stop` does not occur. -/
def splitAtFirst (stop : Char) : List Char → Option (List Char × List Char)
  | [] => none
  | c :: t =>
    if c = stop then some ([], t)
    else (splitAtFirst stop t).map (fun p => (c :: p.1, p.2))

/-- The `(.+)$` tail: `.` excludes newline; `$` also matches just before one
final newline. -/
def dotPlusTail (l : List Char) : Option (List Char) :=
  let l' := if l.getLast? = some '\n' then l.dropLast else l
  if l'.isEmpty then none
  else if l'.all (fun c => c != '\n') then some l' else none

/-- `^\[([^\]]+)\]:(.+)$` -/
def matchBracket (l : List Char) : Option (List Char × List Char) :=
  match l with
  | '[' :: rest =>
    match splitAtFirst ']' rest with
    | some (g1, rest2) =>
      if g1.isEmpty then none
      else
        match rest2 with
        | ':' :: rest3 => (dotPlusTail rest3).map (fun g2 => (g1, g2))
        | _ => none
    | none => none
  | _ => none

/-- `^([^:]+):(.+)$` -/
def matchGeneric (l : List Char) : Option (List Char × List Char) :=
  match splitAtFirst ':' l with
  | some (g1, rest) =>
    if g1.isEmpty then none
    else (dotPlusTail rest).map (fun g2 => (g1, g2))
  | none => none

/-- `^\(([^\)]+)\):(.+)$` -/
def matchParen (l : List Char) : Option (List Char × List Char) :=
  match l with
  | '(' :: rest =>
    match splitAtFirst ')' rest with
    | some (g1, rest2) =>
      if g1.isEmpty then none
      else
        match rest2 with
        | ':' :: rest3 => (dotPlusTail rest3).map (fun g2 => (g1, g2))
        | _ => none
    | none => none
  | _ => none

/-- `<([^>]+)>:(.+)$` (used with `re.match`, hence anchored like the others). -/
def matchAngle (l : List Char) : Option (List Char × List Char) :=
  match l with
  | '<' :: rest =>
    match splitAtFirst '>' rest with
    | some (g1, rest2) =>
      if g1.isEmpty then none
      else
        match rest2 with
        | ':' :: rest3 => (dotPlusTail rest3).map (fun g2 => (g1, g2))
        | _ => none
    | none => none
  | _ => none

/-- `_extract_speaker_and_text`: try `speaker_patterns` in their source order —
`[Speaker]:`, generic `Speaker:`, `(Speaker):`, `<Speaker>:` — on the stripped
line, returning the stripped groups of the first match, else the stripped line. -/
def extract_speaker_and_text (text : String) : Option String × String :=
  let t := stripList text.data
  match matchBracket t with
  | some (g1, g2) => (some (String.mk (stripList g1)), String.mk (stripList g2))
  | none =>
    match matchGeneric t with
    | some (g1, g2) => (some (String.mk (stripList g1)), String.mk (stripList g2))
    | none =>
      match matchParen t with
      | some (g1, g2) => (some (String.mk (stripList g1)), String.mk (stripList g2))
      | none =>
        match matchAngle t with
        | some (g1, g2) => (some (String.mk (stripList g1)), String.mk (stripList g2))
        | none => (none, String.mk t)

/-! ## Transcript entries, speaker check, timestamps -/

/-- One timed caption unit.  `start` is embedded as whole seconds (see the
module docstring). -/
structure TranscriptEntry where
  start : Nat
  text : String
deriving DecidableEq

/-- `_check_for_speakers`: true iff some entry yields a truthy (non-empty)
speaker; Python's `if speaker:` also rejects the empty string. -/
def check_for_speakers (transcript : List TranscriptEntry) : Bool :=
  transcript.any (fun e =>
    match extract_speaker_and_text e.text with
    | (some speaker, _) => !speaker.data.isEmpty
    | (none, _) => false)

/-- Zero-pad to (at least) two digits, as `f"{n:02d}"` does for nonnegative `n`. -/
def pad2 (n : Nat) : String :=
  if n < 10 then "0" ++ toString n else toString n

/-- `_format_timestamp` on whole seconds: `HH:MM:SS`, hours unbounded. -/
def format_timestamp (seconds : Nat) : String :=
  pad2 (seconds / 3600) ++ ":" ++ pad2 (seconds % 3600 / 60) ++ ":" ++ pad2 (seconds % 60)

/-! ## Video id extraction (`_extract_video_id`) -/

/-- The regex class `[0-9A-Za-z_-]`. -/
def idChar (c : Char) : Bool :=
  c.isAlphanum || c = '_' || c = '-'

/-- Take the 11-character id group if the next 11 characters all lie in the class. -/
def grabId (rest : List Char) : Option (List Char) :=
  let g := rest.take 11
  if g.length == 11 && g.all idChar then some g else none

/-- One attempt of `(?:v=|\/)([0-9A-Za-z_-]{11}).*` at the current position. -/
def matchIdAt : List Char → Option (List Char)
  | 'v' :: '=' :: rest => grabId rest
  | '/' :: rest => grabId rest
  | _ => none

/-- `re.search` of the first pattern: leftmost position wins. -/
def searchId : List Char → Option (List Char)
  | [] => none
  | c :: t =>
    match matchIdAt (c :: t) with
    | some g => some g
    | none => searchId t

/-- The second pattern `^([0-9A-Za-z_-]{11})$`: the whole string (up to one
final newline, per `$`) is exactly 11 class characters. -/
def exactId (l : List Char) : Option (List Char) :=
  let l' := if l.getLast? = some '\n' then l.dropLast else l
  if l'.length == 11 && l'.all idChar then some l' else none

/-- `_extract_video_id`: try the search pattern, then the exact pattern. -/
def extract_video_id (url : String) : Option String :=
  match searchId url.data with
  | some g => some (String.mk g)
  | none => (exactId url.data).map String.mk

/-! ## Path helpers (`os.path` on POSIX) -/

/-- `os.path.dirname`: everything up to the last `/`, with trailing slashes
stripped unless the head consists only of slashes. -/
def dirname (p : String) : String :=
  let l := p.data
  let head := (l.reverse.dropWhile (fun c => c != '/')).reverse
  if head.all (fun c => c == '/') then String.mk head
  else String.mk ((head.reverse.dropWhile (fun c => c == '/')).reverse)

/-- `os.path.join` for two components. -/
def joinPath (a b : String) : String :=
  if b.data.take 1 == ['/'] then b
  else if a.data.isEmpty || a.data.getLast? == some '/' then String.mk (a.data ++ b.data)
  else String.mk (a.data ++ '/' :: b.data)

/-- Models `os.path.relpath` for the call shapes occurring in the source:
an empty start (which resolves to the path itself), equal paths, or a start
that is a directory prefix of the path. -/
def relpath (path start : String) : String :=
  if start = "" then path
  else if path = start then "."
  else if (start.data ++ ['/']).isPrefixOf path.data then
    String.mk (path.data.drop (start.data.length + 1))
  else path

/-- Bool test that `sfx` is a suffix of `s` (used to recognise
`*_metadata.json` sidecar names). -/
def strHasSuffix (sfx s : String) : Bool :=
  sfx.data.isSuffixOf s.data

/-- Python `str.split(sep)` for a one-character separator: every maximal
segment between separators, keeping empty segments (`"".split` gives `[""]`). -/
def splitOnChar (sep : Char) : List Char → List (List Char)
  | [] => [[]]
  | c :: t =>
    let r := splitOnChar sep t
    if c = sep then [] :: r
    else
      match r with
      | h :: t' => (c :: h) :: t'
      | [] => [[c]]

/-- `rel_path.split(os.sep)` as a list of strings. -/
def splitPath (s : String) : List String :=
  (splitOnChar '/' s.data).map String.mk

/-! ## Metadata records -/

structure ChannelInfo where
  channel_name : String
  channel_id : Option String
  channel_url : Option String
deriving DecidableEq

structure Metadata where
  title : String
  video_id : String
  url : String
  has_speaker_labels : Bool
  channel : ChannelInfo
deriving DecidableEq

/-- Result of the oEmbed lookups, an external collaborator: the title and the
channel info (placeholders already substituted on lookup failure). -/
structure OEmbedInfo where
  title : String
  channel : ChannelInfo
deriving DecidableEq

/-- `_get_video_metadata`: combine the oEmbed result with the derived fields. -/
def get_video_metadata (video_id : String) (transcript : List TranscriptEntry)
    (info : OEmbedInfo) : Metadata :=
  { title := info.title
    video_id := video_id
    url := "https://www.youtube.com/watch?v=" ++ video_id
    has_speaker_labels := check_for_speakers transcript
    channel := info.channel }

/-! ## Association lists (Python dicts in insertion order) -/

/-- First value stored under key `k`, like `d[k]` on a Python dict (keys are
unique there, so first match is the match). -/
def alookup {α : Type} : List (String × α) → String → Option α
  | [], _ => none
  | (n, v) :: t, k => if n = k then some v else alookup t k

/-- Rewrite the value at the first occurrence of key `k` in place. -/
def updateAt {α : Type} (k : String) (f : α → α) : List (String × α) → List (String × α)
  | [] => []
  | (n, v) :: t => if n = k then (n, f v) :: t else (n, v) :: updateAt k f t

/-- `if k not in d: d[k] = v0` — append a fresh binding when the key is absent. -/
def ensureKey {α : Type} (l : List (String × α)) (k : String) (v0 : α) : List (String × α) :=
  if (alookup l k).isSome then l else l ++ [(k, v0)]

/-! ## Index documents -/

/-- One video record as stored in the root and master indices. -/
structure VideoInfo where
  title : String
  video_id : String
  url : String
  transcript_path : String
  date_added : String
deriving DecidableEq

/-- The `video_info` record built by both index mutators. -/
def mkVideoInfo (md : Metadata) (relp now : String) : VideoInfo :=
  ⟨md.title, md.video_id, md.url, relp, now⟩

structure RootChannel where
  channel_id : Option String
  channel_url : Option String
  videos : List VideoInfo
deriving DecidableEq

/-- `root_transcripts.json` (channel-scoped "root" index). -/
structure RootData where
  last_updated : String
  total_transcripts : Nat
  channels : List (String × RootChannel)
deriving DecidableEq

def emptyRootData : RootData := ⟨"", 0, []⟩

/-- Number of entries stored in a root document. -/
def rootEntryCount (d : RootData) : Nat :=
  (d.channels.map (fun p => p.2.videos.length)).sum

/-- Number of entries carrying a given `video_id` in a root document. -/
def rootIdCount (d : RootData) (vid : String) : Nat :=
  (d.channels.map (fun p => (p.2.videos.filter (fun v => v.video_id == vid)).length)).sum

/-- The root index mutation for one channel: `# Check if video already exists
(avoid duplicates)` — append only when the `video_id` is not yet listed. -/
def rootInsert (vid : String) (vinfo : VideoInfo) (ch : RootChannel) : RootChannel :=
  if vid ∈ ch.videos.map VideoInfo.video_id then ch
  else { ch with videos := ch.videos ++ [vinfo] }

/-- `update_root_transcripts_json`: the pure load-mutate part (the document at
`root_json_path`, or the empty canonical one, comes in as `d`; the written
document is the result). -/
def update_root_transcripts_json (transcript_path base_dir now : String)
    (md : Metadata) (d : RootData) : RootData :=
  let cname := md.channel.channel_name
  let channels := ensureKey d.channels cname
    ⟨md.channel.channel_id, md.channel.channel_url, []⟩
  let vinfo := mkVideoInfo md (relpath transcript_path base_dir) now
  let channels := updateAt cname (rootInsert md.video_id vinfo) channels
  { last_updated := now
    total_transcripts := (channels.map (fun p => p.2.videos.length)).sum
    channels := channels }

structure PlaylistEntry where
  videos : List VideoInfo
deriving DecidableEq

structure MasterChannel where
  channel_id : Option String
  channel_url : Option String
  playlists : List (String × PlaylistEntry)
  videos : List VideoInfo
deriving DecidableEq

/-- `master_transcript_index.json` (global master index). -/
structure MasterData where
  last_updated : String
  total_transcripts : Nat
  channels : List (String × MasterChannel)
deriving DecidableEq

def emptyMasterData : MasterData := ⟨"", 0, []⟩

/-- `len(channel['videos']) + sum(len(pl['videos']) ...)` for one channel. -/
def masterChannelCount (ch : MasterChannel) : Nat :=
  ch.videos.length + (ch.playlists.map (fun p => p.2.videos.length)).sum

/-- Number of entries stored in a master document. -/
def masterEntryCount (d : MasterData) : Nat :=
  (d.channels.map (fun p => masterChannelCount p.2)).sum

/-- Number of entries carrying a given `video_id` in one master channel. -/
def masterChannelIdCount (vid : String) (ch : MasterChannel) : Nat :=
  (ch.videos.filter (fun v => v.video_id == vid)).length +
    (ch.playlists.map (fun p => (p.2.videos.filter (fun v => v.video_id == vid)).length)).sum

/-- Number of entries carrying a given `video_id` in a master document. -/
def masterIdCount (d : MasterData) (vid : String) : Nat :=
  (d.channels.map (fun p => masterChannelIdCount vid p.2)).sum

/-- Every `video_id` reachable in a master document, with multiplicity. -/
def masterAllIds (d : MasterData) : List String :=
  d.channels.foldr (fun p acc =>
    p.2.videos.map VideoInfo.video_id ++
      p.2.playlists.foldr (fun q acc2 => q.2.videos.map VideoInfo.video_id ++ acc2) [] ++
      acc) []

/-- Number of distinct `video_id`s reachable in a master document. -/
def masterUniqueIdCount (d : MasterData) : Nat :=
  (masterAllIds d).dedup.length

/-- `master_data['channels'][channel_name]['videos'].append(video_info)`. -/
def masterDirectInsert (vinfo : VideoInfo) (ch : MasterChannel) : MasterChannel :=
  { ch with videos := ch.videos ++ [vinfo] }

/-- Initialise the playlist binding if absent, then append the video record to
`playlists[playlist_name]['videos']`. -/
def masterPlaylistInsert (playlist_name : String) (vinfo : VideoInfo)
    (ch : MasterChannel) : MasterChannel :=
  let pls := ensureKey ch.playlists playlist_name ⟨[]⟩
  { ch with playlists := updateAt playlist_name (fun pe => ⟨pe.videos ++ [vinfo]⟩) pls }

/-- `update_master_json`: the pure load-mutate part.  A relative path with more
than two components routes the entry into `playlists[path_parts[1]]`,
otherwise into the channel's direct video list; both branches append
unconditionally. -/
def update_master_json (transcript_path base_dir now : String)
    (md : Metadata) (d : MasterData) : MasterData :=
  let cname := md.channel.channel_name
  let rel_path := relpath transcript_path base_dir
  let channels := ensureKey d.channels cname
    ⟨md.channel.channel_id, md.channel.channel_url, [], []⟩
  let path_parts := splitPath rel_path
  let vinfo := mkVideoInfo md rel_path now
  let channels :=
    if 2 < path_parts.length then
      updateAt cname (masterPlaylistInsert (path_parts.getD 1 "") vinfo) channels
    else
      updateAt cname (masterDirectInsert vinfo) channels
  { last_updated := now
    total_transcripts := (channels.map (fun p => masterChannelCount p.2)).sum
    channels := channels }

/-- One video record as stored by `update_root_folder_json`. -/
structure RootFolderVideo where
  title : String
  video_id : String
  url : String
  original_path : String
  root_path : String
  date_added : String
deriving DecidableEq

/-- The per-channel-folder `root_transcripts.json` maintained by
`update_root_folder_json`. -/
structure RootFolderData where
  last_updated : String
  total_transcripts : Nat
  videos : List RootFolderVideo
deriving DecidableEq

def emptyRootFolderData : RootFolderData := ⟨"", 0, []⟩

/-- `update_root_folder_json`: the pure load-mutate part (appends
unconditionally, then recounts). -/
def update_root_folder_json (original_path root_path now : String)
    (md : Metadata) (d : RootFolderData) : RootFolderData :=
  let vinfo : RootFolderVideo := ⟨md.title, md.video_id, md.url, original_path, root_path, now⟩
  let videos := d.videos ++ [vinfo]
  { last_updated := now
    total_transcripts := videos.length
    videos := videos }

/-! ## Rendering and the single-video orchestration -/

/-- `"="*50`. -/
def eqSeparator : String := String.mk (List.replicate 50 '=')

/-- Python's f-string rendering of an optional value (`None` prints as "None"). -/
def optStr (o : Option String) : String := o.getD "None"

/-- One body line: `[timestamp] speaker: text` when a truthy speaker was
extracted, else `[timestamp] text` (Python's `if speaker:` rejects `""`). -/
def transcriptLine (e : TranscriptEntry) : String :=
  match extract_speaker_and_text e.text with
  | (some speaker, text) =>
    if speaker.data.isEmpty then "[" ++ format_timestamp e.start ++ "] " ++ text ++ "\n"
    else "[" ++ format_timestamp e.start ++ "] " ++ speaker ++ ": " ++ text ++ "\n"
  | (none, text) => "[" ++ format_timestamp e.start ++ "] " ++ text ++ "\n"

/-- The `transcript_content` assembled by `save_transcript_with_timestamps`:
seven header lines, a blank line, the separator, a blank line, then the body. -/
def renderTranscript (md : Metadata) (now : String) (transcript : List TranscriptEntry) : String :=
  "Title: " ++ md.title ++ "\n" ++
  "Video URL: " ++ md.url ++ "\n" ++
  "Channel Name: " ++ md.channel.channel_name ++ "\n" ++
  "Channel URL: " ++ optStr md.channel.channel_url ++ "\n" ++
  "Channel ID: " ++ optStr md.channel.channel_id ++ "\n" ++
  "Has Speaker Labels: " ++ (if md.has_speaker_labels then "True" else "False") ++ "\n" ++
  "Downloaded: " ++ now ++ "\n" ++
  "\n" ++ eqSeparator ++ "\n\n" ++
  String.join (transcript.map transcriptLine)

/-- One `open(path, 'w').write(content)` call. -/
structure FileWrite where
  path : String
  content : String
deriving DecidableEq

/-- The filesystem as touched by one archive root: every path opened for
writing (in order), the transcript-file writes with their contents, and the
two persisted index documents. -/
structure ArchiveState where
  writtenPaths : List String
  txtWrites : List FileWrite
  masterDoc : Option MasterData
  rootDoc : Option RootData
deriving DecidableEq

def emptyArchiveState : ArchiveState := ⟨[], [], none, none⟩

/-- `save_transcript_with_timestamps`.  The external fetches are inputs:
`fetchedTranscript` is `get_transcript`'s result (`none` on any fetch error —
that function catches every exception) and `info` the oEmbed result.  Returns
the updated filesystem state and the function's return value. -/
def save_transcript_with_timestamps (video_url base_dir now : String)
    (fetchedTranscript : Option (List TranscriptEntry)) (info : OEmbedInfo)
    (st : ArchiveState) : ArchiveState × Option (String × Metadata) :=
  match extract_video_id video_url with
  | none => (st, none)
  | some video_id =>
    match fetchedTranscript with
    | none => (st, none)
    | some transcript =>
      if transcript.isEmpty then (st, none)
      else
        let md := get_video_metadata video_id transcript info
        let safe_title := sanitize_filename md.title
        let filename := safe_title ++ "_" ++ video_id ++ ".txt"
        let playlist_filepath := joinPath base_dir filename
        let root_dir := dirname (dirname base_dir)
        let root_filepath := joinPath root_dir filename
        let transcript_content := renderTranscript md now transcript
        let master_json_path := joinPath root_dir "master_transcript_index.json"
        let root_json_path := joinPath root_dir "root_transcripts.json"
        (⟨st.writtenPaths ++ [playlist_filepath, root_filepath, master_json_path, root_json_path],
          st.txtWrites ++ [⟨playlist_filepath, transcript_content⟩,
            ⟨root_filepath, transcript_content⟩],
          some (update_master_json playlist_filepath root_dir now md
            (st.masterDoc.getD emptyMasterData)),
          some (update_root_transcripts_json root_filepath root_dir now md
            (st.rootDoc.getD emptyRootData))⟩,
         some (playlist_filepath, md))

/-! ## Failure-aware embeddings for the error-propagation claim

Filesystem calls are modelled as supplied `Except` results.  The two index
mutators wrap their whole body in `try/except Exception: print(...)`, so any
failure is caught; the transcript-file writes in
`save_transcript_with_timestamps` have no handler, so a failure propagates. -/

/-- `update_master_json` including its exception handler: `loadRes` is the
outcome of reading the existing file, `writeRes` the outcome of writing the
updated document. -/
def update_master_json_run (loadRes : Except String (Option MasterData))
    (writeRes : MasterData → Except String Unit)
    (transcript_path base_dir now : String) (md : Metadata) : Except String Unit :=
  let body : Except String Unit :=
    match loadRes with
    | .error e => .error e
    | .ok existing =>
      writeRes (update_master_json transcript_path base_dir now md
        (existing.getD emptyMasterData))
  match body with
  | .ok _ => .ok ()
  | .error _ => .ok ()

/-- `update_root_transcripts_json` including its exception handler. -/
def update_root_transcripts_json_run (loadRes : Except String (Option RootData))
    (writeRes : RootData → Except String Unit)
    (transcript_path base_dir now : String) (md : Metadata) : Except String Unit :=
  let body : Except String Unit :=
    match loadRes with
    | .error e => .error e
    | .ok existing =>
      writeRes (update_root_transcripts_json transcript_path base_dir now md
        (existing.getD emptyRootData))
  match body with
  | .ok _ => .ok ()
  | .error _ => .ok ()

/-- The two unguarded transcript-file writes of
`save_transcript_with_timestamps` (lines 247-255): no handler, failures
short-circuit out of the function. -/
def write_transcript_files (writeFile : String → String → Except String Unit)
    (playlist_filepath root_filepath content : String) : Except String Unit :=
  match writeFile playlist_filepath content with
  | .error e => .error e
  | .ok _ => writeFile root_filepath content

/-! ## Update sequences (for the aggregate-count invariant) -/

/-- Arguments of one root/master index update. -/
structure IndexOp where
  transcript_path : String
  base_dir : String
  now : String
  md : Metadata

/-- Arguments of one `update_root_folder_json` call. -/
structure RootFolderOp where
  original_path : String
  root_path : String
  now : String
  md : Metadata

def applyMasterOps (ops : List IndexOp) (d : MasterData) : MasterData :=
  ops.foldl (fun acc op =>
    update_master_json op.transcript_path op.base_dir op.now op.md acc) d

def applyRootOps (ops : List IndexOp) (d : RootData) : RootData :=
  ops.foldl (fun acc op =>
    update_root_transcripts_json op.transcript_path op.base_dir op.now op.md acc) d

def applyRootFolderOps (ops : List RootFolderOp) (d : RootFolderData) : RootFolderData :=
  ops.foldl (fun acc op =>
    update_root_folder_json op.original_path op.root_path op.now op.md acc) d

/-! ## Concrete fixtures for counterexamples and witnesses -/

def chanA : ChannelInfo := ⟨"ChannelA", some "cidA", some "https://youtube.com/@a"⟩

def mdA : Metadata :=
  ⟨"Title A", "aaaaaaaaaaa", "https://www.youtube.com/watch?v=aaaaaaaaaaa", false, chanA⟩

def oembedA : OEmbedInfo := ⟨"My Video", chanA⟩

def chanC : ChannelInfo := ⟨"Chan", none, none⟩

def mdC : Metadata :=
  ⟨"Title C", "ccccccccccc", "https://www.youtube.com/watch?v=ccccccccccc", false, chanC⟩

/-! # Lemmas and claim theorems -/

/-! ## Sanitization -/

theorem mem_of_mem_stripList {c : Char} {l : List Char} (h : c ∈ stripList l) : c ∈ l := by
  unfold stripList at h
  rw [List.mem_reverse] at h
  replace h := (List.dropWhile_sublist _).subset h
  rw [List.mem_reverse] at h
  exact (List.dropWhile_sublist _).subset h

theorem mem_of_mem_collapseAux {c : Char} :
    ∀ (b : Bool) (l : List Char), c ∈ collapseAux b l → c = '-' ∨ c ∈ l := by
  intro b l
  induction l generalizing b with
  | nil => intro h; simp [collapseAux] at h
  | cons a t ih =>
    intro h
    cases hd : dashOrSpace a with
    | true =>
      cases b with
      | true =>
        simp only [collapseAux, hd, if_true] at h
        rcases ih true h with h' | h'
        · exact Or.inl h'
        · exact Or.inr (List.mem_cons_of_mem _ h')
      | false =>
        simp only [collapseAux, hd, if_true] at h
        rcases List.mem_cons.mp h with h' | h'
        · exact Or.inl h'
        · rcases ih true h' with h'' | h''
          · exact Or.inl h''
          · exact Or.inr (List.mem_cons_of_mem _ h'')
    | false =>
      simp only [collapseAux, hd, if_false, Bool.false_eq_true] at h
      rcases List.mem_cons.mp h with h' | h'
      · exact Or.inr (h' ▸ List.mem_cons_self a t)
      · rcases ih false h' with h'' | h''
        · exact Or.inl h''
        · exact Or.inr (List.mem_cons_of_mem _ h'')

theorem not_space_of_mem_collapseAux {c : Char} :
    ∀ (b : Bool) (l : List Char), c ∈ collapseAux b l → isPySpace c = false := by
  intro b l
  induction l generalizing b with
  | nil => intro h; simp [collapseAux] at h
  | cons a t ih =>
    intro h
    cases hd : dashOrSpace a with
    | true =>
      cases b with
      | true =>
        simp only [collapseAux, hd, if_true] at h
        exact ih true h
      | false =>
        simp only [collapseAux, hd, if_true] at h
        rcases List.mem_cons.mp h with h' | h'
        · subst h'; decide
        · exact ih true h'
    | false =>
      simp only [collapseAux, hd, if_false, Bool.false_eq_true] at h
      rcases List.mem_cons.mp h with h' | h'
      · subst h'
        simp [dashOrSpace] at hd
        exact hd.2
      · exact ih false h'


theorem head_collapseAux_true {l : List Char} {c : Char}
    (h : (collapseAux true l).head? = some c) : dashOrSpace c = false := by
  induction l with
  | nil => simp [collapseAux] at h
  | cons a t ih =>
    cases hd : dashOrSpace a with
    | true =>
      simp only [collapseAux, hd, if_true] at h
      exact ih h
    | false =>
      simp only [collapseAux, hd, if_false, Bool.false_eq_true, List.head?_cons,
        Option.some.injEq] at h
      exact h ▸ hd

theorem noDoubleDash_cons {a : Char} {l : List Char}
    (h1 : ∀ b, l.head? = some b → ¬(a = '-' ∧ b = '-'))
    (h2 : noDoubleDash l = true) : noDoubleDash (a :: l) = true := by
  cases l with
  | nil => rfl
  | cons b t =>
    have hb := h1 b rfl
    simp only [noDoubleDash, Bool.and_eq_true, Bool.not_eq_true']
    refine ⟨?_, h2⟩
    by_cases ha : a = '-'
    · by_cases hbb : b = '-'
      · exact absurd ⟨ha, hbb⟩ hb
      · simp [ha, hbb]
    · simp [ha]

theorem noDoubleDash_collapseAux : ∀ (b : Bool) (l : List Char),
    noDoubleDash (collapseAux b l) = true := by
  intro b l
  induction l generalizing b with
  | nil => cases b <;> rfl
  | cons a t ih =>
    cases hd : dashOrSpace a with
    | true =>
      cases b with
      | true =>
        simp only [collapseAux, hd, if_true]
        exact ih true
      | false =>
        simp only [collapseAux, hd, if_true]
        refine noDoubleDash_cons ?_ (ih true)
        intro c hc hcontra
        have := head_collapseAux_true hc
        rw [hcontra.2] at this
        simp [dashOrSpace] at this
    | false =>
      simp only [collapseAux, hd, if_false, Bool.false_eq_true]
      refine noDoubleDash_cons ?_ (ih false)
      intro c _ hcontra
      rw [hcontra.1] at hd
      simp [dashOrSpace] at hd

theorem noDoubleDash_tail {a : Char} {l : List Char}
    (h : noDoubleDash (a :: l) = true) : noDoubleDash l = true := by
  cases l with
  | nil => rfl
  | cons b t =>
    simp only [noDoubleDash, Bool.and_eq_true] at h
    exact h.2

theorem collapseAux_fixpoint :
    ∀ (l : List Char), (∀ c ∈ l, isPySpace c = false) → noDoubleDash l = true →
      collapseAux false l = l := by
  intro l
  induction l with
  | nil => intro _ _; rfl
  | cons a t ih =>
    intro hs hd
    by_cases ha : a = '-'
    · subst ha
      have hda : dashOrSpace '-' = true := by decide
      simp only [collapseAux, hda, if_true]
      have htail : collapseAux true t = t := by
        cases t with
        | nil => rfl
        | cons b t' =>
          have hb2 : ¬(b = '-') := by
            simp only [noDoubleDash, Bool.and_eq_true, Bool.not_eq_true'] at hd
            intro hbb
            simp [hbb] at hd
          have hbs : isPySpace b = false := hs b (List.mem_cons_of_mem _ (List.mem_cons_self _ _))
          have hdb : dashOrSpace b = false := by
            simp [dashOrSpace, hb2, hbs]
          simp only [collapseAux, hdb, if_false, Bool.false_eq_true]
          have := ih (fun c hc => hs c (List.mem_cons_of_mem _ hc)) (noDoubleDash_tail hd)
          simp only [collapseAux, hdb, if_false, Bool.false_eq_true] at this
          exact this
      rw [htail]
      simp
    · have hsa : isPySpace a = false := hs a (List.mem_cons_self _ _)
      have hda : dashOrSpace a = false := by simp [dashOrSpace, ha, hsa]
      simp only [collapseAux, hda, if_false, Bool.false_eq_true]
      rw [ih (fun c hc => hs c (List.mem_cons_of_mem _ hc)) (noDoubleDash_tail hd)]

theorem sanitize_chars {x : String} {c : Char}
    (h : c ∈ (sanitize_filename x).data) : forbiddenChar c = false := by
  have h' : c ∈ collapseAux false (stripList (x.data.filter (fun c => !forbiddenChar c))) := h
  rcases mem_of_mem_collapseAux false _ h' with h'' | h''
  · subst h''; decide
  · have hm := mem_of_mem_stripList h''
    have h2 := (List.mem_filter.mp hm).2
    simpa using h2

theorem sanitize_no_space {x : String} {c : Char}
    (h : c ∈ (sanitize_filename x).data) : isPySpace c = false := by
  have h' : c ∈ collapseAux false (stripList (x.data.filter (fun c => !forbiddenChar c))) := h
  exact not_space_of_mem_collapseAux false _ h'

theorem dropWhile_eq_self_of_all {p : Char → Bool} {l : List Char}
    (h : ∀ c ∈ l, p c = false) : l.dropWhile p = l := by
  cases l with
  | nil => rfl
  | cons a t => simp [List.dropWhile_cons, h a (List.mem_cons_self _ _)]

theorem stripList_eq_self {l : List Char}
    (h : ∀ c ∈ l, isPySpace c = false) : stripList l = l := by
  unfold stripList
  rw [dropWhile_eq_self_of_all h]
  rw [dropWhile_eq_self_of_all (fun c hc => h c (List.mem_reverse.mp hc))]
  exact List.reverse_reverse l

theorem noDoubleDash_sanitize (x : String) :
    noDoubleDash (sanitize_filename x).data = true :=
  noDoubleDash_collapseAux false (stripList (x.data.filter (fun c => !forbiddenChar c)))

/-- C6: filename sanitization is idempotent — for every string `x`,
`sanitize(sanitize(x)) = sanitize(x)`. -/
theorem c6_sanitize_idempotent (x : String) :
    sanitize_filename (sanitize_filename x) = sanitize_filename x := by
  have hfc : ∀ c ∈ (sanitize_filename x).data, (!forbiddenChar c) = true := by
    intro c hc
    rw [sanitize_chars hc]
    rfl
  show String.mk (collapseRuns (stripList
    ((sanitize_filename x).data.filter (fun c => !forbiddenChar c)))) = sanitize_filename x
  rw [List.filter_eq_self.mpr hfc]
  rw [stripList_eq_self (fun c hc => sanitize_no_space hc)]
  rw [show collapseRuns (sanitize_filename x).data = (sanitize_filename x).data from
    collapseAux_fixpoint _ (fun c hc => sanitize_no_space hc) (noDoubleDash_sanitize x)]

/-- C7 counterexample: on an input consisting entirely of forbidden path
characters, `_sanitize_filename` returns the empty string, not a non-empty
safe string as the claim demands. -/
theorem c7_counterexample :
    sanitize_filename "<>?*" = "" ∧ "<>?*" ≠ "" := by
  constructor
  · rfl
  · decide

/-- C7 amended: the sanitized output never contains a forbidden path
character, but an input consisting entirely of forbidden characters degrades
to the empty string (not to a non-empty one). -/
theorem c7_sanitize_forbidden_amended :
    (∀ (x : String) (c : Char), c ∈ (sanitize_filename x).data → forbiddenChar c = false) ∧
    sanitize_filename "<>?*" = "" := by
  exact ⟨fun _ _ h => sanitize_chars h, rfl⟩

/-- C7 witness: the universal part of the amended theorem applied at a
concrete input and character. -/
theorem c7_amended_witness : forbiddenChar 'a' = false :=
  c7_sanitize_forbidden_amended.1 "ab" 'a' (by decide)

/-! ## Speaker extraction priority -/

/-- C3 counterexample: the claim says `"(Speaker): text"` yields speaker
`"Speaker"` without the parentheses; the code tries the generic colon pattern
second, so the parenthesized convention never fires and the speaker keeps its
parentheses. -/
theorem c3_counterexample :
    extract_speaker_and_text "(Speaker): text" ≠ (some "Speaker", "text") ∧
    extract_speaker_and_text "(Speaker): text" = (some "(Speaker)", "text") := by
  constructor
  · decide
  · decide

/-- C3 amended: `speaker_patterns` is tried in the order `[Speaker]:`, generic
`Speaker:`, `(Speaker):`, `<Speaker>:`.  The bracket convention still has top
priority (first conjunct, universally), but the generic colon convention is
second rather than last, so it shadows the parenthesized and angle
conventions: `"(Speaker): text"` yields `"(Speaker)"` and `"<S>: t"` yields
`"<S>"`, while `"[Bot]: (ignored) hi"` still yields `"Bot"`. -/
theorem c3_speaker_priority_amended :
    (∀ (s : String) (g1 g2 : List Char), matchBracket (stripList s.data) = some (g1, g2) →
      extract_speaker_and_text s =
        (some (String.mk (stripList g1)), String.mk (stripList g2))) ∧
    extract_speaker_and_text "(Speaker): text" = (some "(Speaker)", "text") ∧
    extract_speaker_and_text "<S>: t" = (some "<S>", "t") ∧
    extract_speaker_and_text "[Bot]: (ignored) hi" = (some "Bot", "(ignored) hi") ∧
    extract_speaker_and_text "A: b" = (some "A", "b") ∧
    extract_speaker_and_text "plain words" = (none, "plain words") := by
  refine ⟨?_, by decide, by decide, by decide, by decide, by decide⟩
  intro s g1 g2 h
  unfold extract_speaker_and_text
  simp only [h]

/-- C3 witness: the universal bracket-priority conjunct applied at a concrete
line. -/
theorem c3_amended_witness :
    extract_speaker_and_text "[B]: x" =
      (some (String.mk (stripList ['B'])), String.mk (stripList [' ', 'x'])) :=
  c3_speaker_priority_amended.1 "[B]: x" ['B'] [' ', 'x'] (by decide)

/-! ## Association-list lemmas -/

theorem alookup_append_right {α : Type} {l : List (String × α)} {k : String}
    (h : alookup l k = none) (l₂ : List (String × α)) :
    alookup (l ++ l₂) k = alookup l₂ k := by
  induction l with
  | nil => rfl
  | cons p t ih =>
    obtain ⟨n, v⟩ := p
    by_cases hn : n = k
    · simp [alookup, hn] at h
    · simp only [List.cons_append, alookup, hn, if_false] at h ⊢
      exact ih h

theorem alookup_ensureKey_self {α : Type} (l : List (String × α)) (k : String) (v0 : α) :
    alookup (ensureKey l k v0) k = some ((alookup l k).getD v0) := by
  unfold ensureKey
  cases h : alookup l k with
  | some v => simp [h]
  | none =>
    simp only [h, Option.isSome_none, Bool.false_eq_true, if_false, Option.getD_none]
    rw [alookup_append_right h]
    simp [alookup]

theorem alookup_updateAt_self {α : Type} (k : String) (f : α → α) (l : List (String × α)) :
    alookup (updateAt k f l) k = (alookup l k).map f := by
  induction l with
  | nil => rfl
  | cons p t ih =>
    obtain ⟨n, v⟩ := p
    by_cases hn : n = k <;> simp [alookup, updateAt, hn, ih]

theorem updateAt_eq_self {α : Type} {k : String} {f : α → α} {l : List (String × α)}
    (h : ∀ v, alookup l k = some v → f v = v) : updateAt k f l = l := by
  induction l with
  | nil => rfl
  | cons p t ih =>
    obtain ⟨n, v⟩ := p
    by_cases hn : n = k
    · simp only [updateAt, hn, if_true]
      have := h v (by simp [alookup, hn])
      rw [this]
    · simp only [updateAt, hn, if_false]
      have ih' := ih (fun w hw => h w (by simpa [alookup, hn] using hw))
      rw [ih']

theorem sum_map_updateAt {α : Type} (g : α → Nat) (f : α → α) (k : String)
    (l : List (String × α)) (hf : ∀ v, g (f v) = g v + 1)
    (hk : (alookup l k).isSome = true) :
    ((updateAt k f l).map (fun p => g p.2)).sum = (l.map (fun p => g p.2)).sum + 1 := by
  induction l with
  | nil => simp [alookup] at hk
  | cons p t ih =>
    obtain ⟨n, v⟩ := p
    by_cases hn : n = k
    · simp only [updateAt, hn, if_true, List.map_cons, List.sum_cons, hf v]
      omega
    · simp only [alookup, hn, if_false] at hk
      simp only [updateAt, hn, if_false, List.map_cons, List.sum_cons, ih hk]
      omega

theorem sum_map_ensureKey {α : Type} (g : α → Nat) (l : List (String × α)) (k : String)
    (v0 : α) (h0 : g v0 = 0) :
    ((ensureKey l k v0).map (fun p => g p.2)).sum = (l.map (fun p => g p.2)).sum := by
  unfold ensureKey
  by_cases h : (alookup l k).isSome = true
  · simp [h]
  · simp only [h, if_false, List.map_append, List.sum_append, List.map_cons, List.map_nil,
      List.sum_cons, List.sum_nil]
    simpa using h0

/-! ## Index counting and deduplication -/

theorem masterChannelCount_directInsert (vinfo : VideoInfo) (ch : MasterChannel) :
    masterChannelCount (masterDirectInsert vinfo ch) = masterChannelCount ch + 1 := by
  simp only [masterChannelCount, masterDirectInsert, List.length_append, List.length_cons,
    List.length_nil]
  omega

theorem masterChannelCount_playlistInsert (pname : String) (vinfo : VideoInfo)
    (ch : MasterChannel) :
    masterChannelCount (masterPlaylistInsert pname vinfo ch) = masterChannelCount ch + 1 := by
  have hk : (alookup (ensureKey ch.playlists pname ⟨[]⟩) pname).isSome = true := by
    rw [alookup_ensureKey_self]
    rfl
  simp only [masterPlaylistInsert, masterChannelCount]
  rw [sum_map_updateAt (fun pe => pe.videos.length) _ pname _
    (fun pe => by simp) hk]
  rw [sum_map_ensureKey (fun pe => pe.videos.length) ch.playlists pname ⟨[]⟩ rfl]
  omega

theorem update_master_json_total_eq (tp bd now : String) (md : Metadata) (d : MasterData) :
    (update_master_json tp bd now md d).total_transcripts =
      masterEntryCount (update_master_json tp bd now md d) := rfl

theorem masterEntryCount_update (tp bd now : String) (md : Metadata) (d : MasterData) :
    masterEntryCount (update_master_json tp bd now md d) = masterEntryCount d + 1 := by
  unfold masterEntryCount update_master_json
  have hk : (alookup (ensureKey d.channels md.channel.channel_name
      ⟨md.channel.channel_id, md.channel.channel_url, [], []⟩)
      md.channel.channel_name).isSome = true := by
    rw [alookup_ensureKey_self]
    rfl
  have hens := sum_map_ensureKey masterChannelCount d.channels md.channel.channel_name
    ⟨md.channel.channel_id, md.channel.channel_url, [], []⟩ rfl
  simp only []
  split
  · rw [sum_map_updateAt masterChannelCount _ _ _
      (fun ch => masterChannelCount_playlistInsert _ _ ch) hk, hens]
  · rw [sum_map_updateAt masterChannelCount _ _ _
      (fun ch => masterChannelCount_directInsert _ ch) hk, hens]

theorem masterChannelIdCount_directInsert (vid : String) (vinfo : VideoInfo)
    (hvid : vinfo.video_id = vid) (ch : MasterChannel) :
    masterChannelIdCount vid (masterDirectInsert vinfo ch) =
      masterChannelIdCount vid ch + 1 := by
  simp only [masterChannelIdCount, masterDirectInsert, List.filter_append]
  have : (List.filter (fun v => v.video_id == vid) [vinfo]).length = 1 := by
    simp [List.filter, hvid]
  rw [List.length_append, this]
  omega

theorem masterChannelIdCount_playlistInsert (vid : String) (vinfo : VideoInfo)
    (hvid : vinfo.video_id = vid) (pname : String) (ch : MasterChannel) :
    masterChannelIdCount vid (masterPlaylistInsert pname vinfo ch) =
      masterChannelIdCount vid ch + 1 := by
  have hk : (alookup (ensureKey ch.playlists pname ⟨[]⟩) pname).isSome = true := by
    rw [alookup_ensureKey_self]
    rfl
  simp only [masterPlaylistInsert, masterChannelIdCount]
  rw [sum_map_updateAt (fun pe => (pe.videos.filter (fun v => v.video_id == vid)).length)
    _ pname _ (fun pe => by simp [List.filter_append, List.filter, hvid]) hk]
  rw [sum_map_ensureKey (fun pe => (pe.videos.filter (fun v => v.video_id == vid)).length)
    ch.playlists pname ⟨[]⟩ rfl]
  omega

theorem masterIdCount_update (tp bd now : String) (md : Metadata) (d : MasterData) :
    masterIdCount (update_master_json tp bd now md d) md.video_id =
      masterIdCount d md.video_id + 1 := by
  unfold masterIdCount update_master_json
  have hk : (alookup (ensureKey d.channels md.channel.channel_name
      ⟨md.channel.channel_id, md.channel.channel_url, [], []⟩)
      md.channel.channel_name).isSome = true := by
    rw [alookup_ensureKey_self]
    rfl
  have hens := sum_map_ensureKey (masterChannelIdCount md.video_id) d.channels
    md.channel.channel_name ⟨md.channel.channel_id, md.channel.channel_url, [], []⟩ rfl
  simp only []
  split
  · rw [sum_map_updateAt (masterChannelIdCount md.video_id) _ _ _
      (fun ch => masterChannelIdCount_playlistInsert md.video_id
        (mkVideoInfo md (relpath tp bd) now) rfl _ ch) hk, hens]
  · rw [sum_map_updateAt (masterChannelIdCount md.video_id) _ _ _
      (fun ch => masterChannelIdCount_directInsert md.video_id
        (mkVideoInfo md (relpath tp bd) now) rfl ch) hk, hens]

theorem rootInsert_mem (vid : String) (vinfo : VideoInfo) (hvid : vinfo.video_id = vid)
    (ch : RootChannel) : vid ∈ (rootInsert vid vinfo ch).videos.map VideoInfo.video_id := by
  unfold rootInsert
  split
  · assumption
  · simp [hvid]

theorem rootInsert_eq_self {vid : String} {vinfo : VideoInfo} {ch : RootChannel}
    (h : vid ∈ ch.videos.map VideoInfo.video_id) : rootInsert vid vinfo ch = ch := by
  simp [rootInsert, h]

theorem update_root_total_eq (tp bd now : String) (md : Metadata) (d : RootData) :
    (update_root_transcripts_json tp bd now md d).total_transcripts =
      rootEntryCount (update_root_transcripts_json tp bd now md d) := rfl

theorem update_root_channels_eq (tp bd now : String) (md : Metadata) (d : RootData) :
    (update_root_transcripts_json tp bd now md d).channels =
      updateAt md.channel.channel_name
        (rootInsert md.video_id (mkVideoInfo md (relpath tp bd) now))
        (ensureKey d.channels md.channel.channel_name
          ⟨md.channel.channel_id, md.channel.channel_url, []⟩) := rfl

theorem root_contains_after_update (tp bd now : String) (md : Metadata) (d : RootData) :
    ∀ ch, alookup (update_root_transcripts_json tp bd now md d).channels
        md.channel.channel_name = some ch →
      md.video_id ∈ ch.videos.map VideoInfo.video_id := by
  intro ch hch
  rw [update_root_channels_eq, alookup_updateAt_self, alookup_ensureKey_self] at hch
  rw [Option.map_some'] at hch
  have hch' := Option.some.inj hch
  subst hch'
  exact rootInsert_mem md.video_id (mkVideoInfo md (relpath tp bd) now) rfl _

theorem root_reupdate_noop (tp bd now tp' bd' now' : String) (md : Metadata) (d : RootData) :
    (update_root_transcripts_json tp' bd' now' md
        (update_root_transcripts_json tp bd now md d)).channels =
      (update_root_transcripts_json tp bd now md d).channels ∧
    (update_root_transcripts_json tp' bd' now' md
        (update_root_transcripts_json tp bd now md d)).total_transcripts =
      (update_root_transcripts_json tp bd now md d).total_transcripts := by
  set d1 := update_root_transcripts_json tp bd now md d with hd1
  have hsome : (alookup d1.channels md.channel.channel_name).isSome = true := by
    rw [hd1, update_root_channels_eq, alookup_updateAt_self, alookup_ensureKey_self]
    rfl
  have hens : ensureKey d1.channels md.channel.channel_name
      ⟨md.channel.channel_id, md.channel.channel_url, []⟩ = d1.channels := by
    unfold ensureKey
    rw [hsome]
    exact if_pos rfl
  have hch : (update_root_transcripts_json tp' bd' now' md d1).channels = d1.channels := by
    rw [update_root_channels_eq, hens]
    apply updateAt_eq_self
    intro v hv
    exact rootInsert_eq_self (root_contains_after_update tp bd now md d v (hd1 ▸ hv))
  refine ⟨hch, ?_⟩
  rw [update_root_total_eq tp' bd' now' md d1, update_root_total_eq tp bd now md d, ← hd1]
  unfold rootEntryCount
  rw [hch]

/-- C1 counterexample: running the master index update twice with the same
`video_id` appends a duplicate entry and increments `total_transcripts` —
refuting the claim for the master index document. -/
theorem c1_counterexample :
    (update_master_json "b/f.txt" "b" "t1" mdA emptyMasterData).total_transcripts = 1 ∧
    (update_master_json "b/f.txt" "b" "t2" mdA
      (update_master_json "b/f.txt" "b" "t1" mdA emptyMasterData)).total_transcripts = 2 ∧
    masterIdCount (update_master_json "b/f.txt" "b" "t2" mdA
      (update_master_json "b/f.txt" "b" "t1" mdA emptyMasterData)) "aaaaaaaaaaa" = 2 := by
  refine ⟨by decide, by decide, by decide⟩

/-- C1 amended: only the root/channel index deduplicates — re-running
`update_root_transcripts_json` with the same metadata leaves the channel
structure and `total_transcripts` unchanged, and a double update from the
empty document stores exactly one entry for the id.  The master index update
appends unconditionally: every call increments `total_transcripts` and the
entry count of that `video_id`, so re-running it duplicates the entry. -/
theorem c1_index_dedup_amended :
    (∀ (tp bd now tp' bd' now' : String) (md : Metadata) (d : RootData),
      (update_root_transcripts_json tp' bd' now' md
          (update_root_transcripts_json tp bd now md d)).channels =
        (update_root_transcripts_json tp bd now md d).channels ∧
      (update_root_transcripts_json tp' bd' now' md
          (update_root_transcripts_json tp bd now md d)).total_transcripts =
        (update_root_transcripts_json tp bd now md d).total_transcripts) ∧
    rootIdCount (update_root_transcripts_json "b/f.txt" "b" "t2" mdA
      (update_root_transcripts_json "b/f.txt" "b" "t1" mdA emptyRootData)) "aaaaaaaaaaa" = 1 ∧
    (∀ (tp bd now : String) (md : Metadata) (d : MasterData),
      (update_master_json tp bd now md d).total_transcripts = masterEntryCount d + 1 ∧
      masterIdCount (update_master_json tp bd now md d) md.video_id =
        masterIdCount d md.video_id + 1) := by
  refine ⟨root_reupdate_noop, by decide, ?_⟩
  intro tp bd now md d
  constructor
  · rw [update_master_json_total_eq, masterEntryCount_update]
  · exact masterIdCount_update tp bd now md d

/-- C2 counterexample: after two master updates with the same `video_id`,
`total_transcripts` is 2 while only one distinct `video_id` is reachable in
the document — the persisted total counts entries, not unique ids. -/
theorem c2_counterexample :
    (update_master_json "b/f.txt" "b" "t2" mdA
      (update_master_json "b/f.txt" "b" "t1" mdA emptyMasterData)).total_transcripts ≠
      masterUniqueIdCount (update_master_json "b/f.txt" "b" "t2" mdA
        (update_master_json "b/f.txt" "b" "t1" mdA emptyMasterData)) ∧
    (update_master_json "b/f.txt" "b" "t2" mdA
      (update_master_json "b/f.txt" "b" "t1" mdA emptyMasterData)).total_transcripts = 2 ∧
    masterUniqueIdCount (update_master_json "b/f.txt" "b" "t2" mdA
      (update_master_json "b/f.txt" "b" "t1" mdA emptyMasterData)) = 1 := by
  refine ⟨by decide, by decide, by decide⟩

theorem applyMasterOps_invariant (ops : List IndexOp) :
    ∀ (d : MasterData), d.total_transcripts = masterEntryCount d →
      (applyMasterOps ops d).total_transcripts = masterEntryCount (applyMasterOps ops d) := by
  induction ops with
  | nil => intro d h; exact h
  | cons op t ih =>
    intro d _
    simp only [applyMasterOps, List.foldl_cons]
    exact ih _ (update_master_json_total_eq _ _ _ _ _)

theorem applyRootOps_invariant (ops : List IndexOp) :
    ∀ (d : RootData), d.total_transcripts = rootEntryCount d →
      (applyRootOps ops d).total_transcripts = rootEntryCount (applyRootOps ops d) := by
  induction ops with
  | nil => intro d h; exact h
  | cons op t ih =>
    intro d _
    simp only [applyRootOps, List.foldl_cons]
    exact ih _ (update_root_total_eq _ _ _ _ _)

theorem applyRootFolderOps_invariant (ops : List RootFolderOp) :
    ∀ (d : RootFolderData), d.total_transcripts = d.videos.length →
      (applyRootFolderOps ops d).total_transcripts = (applyRootFolderOps ops d).videos.length := by
  induction ops with
  | nil => intro d h; exact h
  | cons op t ih =>
    intro d _
    simp only [applyRootFolderOps, List.foldl_cons]
    refine ih _ ?_
    rfl

/-- C2 amended: after every sequence of index updates starting from the empty
document, `total_transcripts` equals the number of entries reachable through
the nested structure *with multiplicity* (entry count), for all three index
documents.  It does not equal the number of unique `video_id`s: the master
index can hold duplicates (see the counterexample), and the recomputation sums
list lengths without deduplicating. -/
theorem c2_total_equals_entry_count :
    (∀ ops : List IndexOp, (applyMasterOps ops emptyMasterData).total_transcripts =
        masterEntryCount (applyMasterOps ops emptyMasterData)) ∧
    (∀ ops : List IndexOp, (applyRootOps ops emptyRootData).total_transcripts =
        rootEntryCount (applyRootOps ops emptyRootData)) ∧
    (∀ ops : List RootFolderOp,
      (applyRootFolderOps ops emptyRootFolderData).total_transcripts =
        (applyRootFolderOps ops emptyRootFolderData).videos.length) :=
  ⟨fun ops => applyMasterOps_invariant ops emptyMasterData rfl,
   fun ops => applyRootOps_invariant ops emptyRootData rfl,
   fun ops => applyRootFolderOps_invariant ops emptyRootFolderData rfl⟩

/-- C5: master index nesting.  When the relative path has exactly three
components `Channel/Playlist/file`, the new entry is appended under
`channels[channel].playlists[Playlist].videos` and the channel's direct video
list is left exactly as it was (empty for a fresh channel); when the relative
path has at most two components, the entry is appended to the channel's
direct video list and the playlists are untouched. -/
theorem c5_master_nesting :
    (∀ (tp bd now : String) (md : Metadata) (d : MasterData) (c pl f : String),
      splitPath (relpath tp bd) = [c, pl, f] →
      md.channel.channel_name = c →
      ∃ ch, alookup (update_master_json tp bd now md d).channels c = some ch ∧
        (∃ pe, alookup ch.playlists pl = some pe ∧
          pe.videos.getLast? = some (mkVideoInfo md (relpath tp bd) now)) ∧
        ch.videos = (match alookup d.channels c with
          | some ch0 => ch0.videos
          | none => [])) ∧
    (∀ (tp bd now : String) (md : Metadata) (d : MasterData),
      (splitPath (relpath tp bd)).length ≤ 2 →
      ∃ ch, alookup (update_master_json tp bd now md d).channels
          md.channel.channel_name = some ch ∧
        ch.videos.getLast? = some (mkVideoInfo md (relpath tp bd) now) ∧
        ch.playlists = (match alookup d.channels md.channel.channel_name with
          | some ch0 => ch0.playlists
          | none => [])) := by
  constructor
  · intro tp bd now md d c pl f hparts hname
    unfold update_master_json
    simp only [hname, hparts, List.length_cons, List.length_nil, List.getD, List.get?]
    rw [if_pos (by omega : 2 < 0 + 1 + 1 + 1)]
    rw [alookup_updateAt_self, alookup_ensureKey_self, Option.map_some']
    refine ⟨_, rfl, ?_, ?_⟩
    · unfold masterPlaylistInsert
      simp only [Option.getD_some]
      rw [alookup_updateAt_self, alookup_ensureKey_self, Option.map_some']
      refine ⟨_, rfl, ?_⟩
      simp [List.getLast?_concat]
    · unfold masterPlaylistInsert
      simp only [Option.getD_some]
      cases halo : alookup d.channels c <;> simp [halo]
  · intro tp bd now md d hlen
    have hlen' : ¬(2 < (splitPath (relpath tp bd)).length) := by omega
    unfold update_master_json
    simp only [hlen', if_false]
    rw [alookup_updateAt_self, alookup_ensureKey_self, Option.map_some']
    refine ⟨_, rfl, ?_, ?_⟩
    · unfold masterDirectInsert
      simp [List.getLast?_concat]
    · unfold masterDirectInsert
      cases halo : alookup d.channels md.channel.channel_name <;> simp [halo]

/-- C5 witness: the nesting theorem applied at a concrete path
`b/Chan/PL/f.txt` relative to `b`, and at a concrete collection-free path. -/
theorem c5_master_nesting_witness :
    (∃ ch, alookup (update_master_json "b/Chan/PL/f.txt" "b" "t" mdC
        emptyMasterData).channels "Chan" = some ch ∧
      (∃ pe, alookup ch.playlists "PL" = some pe ∧
        pe.videos.getLast? =
          some (mkVideoInfo mdC (relpath "b/Chan/PL/f.txt" "b") "t")) ∧
      ch.videos = (match alookup emptyMasterData.channels "Chan" with
        | some ch0 => ch0.videos
        | none => [])) ∧
    (∃ ch, alookup (update_master_json "b/f.txt" "b" "t" mdC
        emptyMasterData).channels mdC.channel.channel_name = some ch ∧
      ch.videos.getLast? = some (mkVideoInfo mdC (relpath "b/f.txt" "b") "t") ∧
      ch.playlists = (match alookup emptyMasterData.channels mdC.channel.channel_name with
        | some ch0 => ch0.playlists
        | none => [])) :=
  ⟨c5_master_nesting.1 "b/Chan/PL/f.txt" "b" "t" mdC emptyMasterData "Chan" "PL" "f.txt"
      (by decide) (by decide),
   c5_master_nesting.2 "b/f.txt" "b" "t" mdC emptyMasterData (by decide)⟩

/-! ## Single-video orchestration -/

/-- C8: when the video id cannot be derived from the URL, or the transcript
source reports no transcript (`get_transcript` returns `None` — it catches
every exception itself), `save_transcript_with_timestamps` returns `None`,
writes no file, and modifies no index document: the archive state is returned
unchanged. -/
theorem c8_skip_unavailable (video_url base_dir now : String)
    (ft : Option (List TranscriptEntry)) (info : OEmbedInfo) (st : ArchiveState)
    (h : extract_video_id video_url = none ∨ ft = none) :
    save_transcript_with_timestamps video_url base_dir now ft info st = (st, none) := by
  rcases h with h | h
  · unfold save_transcript_with_timestamps
    rw [h]
  · subst h
    unfold save_transcript_with_timestamps
    cases extract_video_id video_url <;> rfl

/-- C8 witness: skipping at a concrete URL whose transcript fetch failed. -/
theorem c8_skip_unavailable_witness :
    save_transcript_with_timestamps "https://www.youtube.com/watch?v=abcdefghijk"
      "transcripts" "now" none oembedA emptyArchiveState = (emptyArchiveState, none) :=
  c8_skip_unavailable "https://www.youtube.com/watch?v=abcdefghijk" "transcripts" "now"
    none oembedA emptyArchiveState (Or.inr rfl)

theorem grabId_spec {rest g : List Char} (h : grabId rest = some g) :
    g.length = 11 ∧ g.all idChar = true := by
  simp only [grabId] at h
  split at h
  · rename_i hcond
    have hg := Option.some.inj h
    subst hg
    simp only [Bool.and_eq_true, beq_iff_eq] at hcond
    exact ⟨hcond.1, hcond.2⟩
  · exact absurd h (by simp)

theorem matchIdAt_spec {l g : List Char} (h : matchIdAt l = some g) :
    g.length = 11 ∧ g.all idChar = true := by
  unfold matchIdAt at h
  split at h
  · exact grabId_spec h
  · exact grabId_spec h
  · exact absurd h (by simp)

theorem searchId_spec {l g : List Char} (h : searchId l = some g) :
    g.length = 11 ∧ g.all idChar = true := by
  induction l with
  | nil => exact absurd h (by simp [searchId])
  | cons c t ih =>
    unfold searchId at h
    split at h
    · rename_i g' hg'
      have := Option.some.inj h
      subst this
      exact matchIdAt_spec hg'
    · exact ih h

theorem exactId_spec {l g : List Char} (h : exactId l = some g) :
    g.length = 11 ∧ g.all idChar = true := by
  simp only [exactId] at h
  split at h
  · split at h
    · rename_i hcond
      have hg := Option.some.inj h
      subst hg
      simp only [Bool.and_eq_true, beq_iff_eq] at hcond
      exact ⟨hcond.1, hcond.2⟩
    · exact absurd h (by simp)
  · split at h
    · rename_i hcond
      have hg := Option.some.inj h
      subst hg
      simp only [Bool.and_eq_true, beq_iff_eq] at hcond
      exact ⟨hcond.1, hcond.2⟩
    · exact absurd h (by simp)

theorem extract_video_id_spec {url v : String} (h : extract_video_id url = some v) :
    v.data.length = 11 ∧ v.data.all idChar = true := by
  unfold extract_video_id at h
  split at h
  · rename_i g hg
    have := Option.some.inj h
    subst this
    exact searchId_spec hg
  · rcases Option.map_eq_some'.mp h with ⟨g, hg, rfl⟩
    exact exactId_spec hg

theorem sanitize_no_slash {t : String} {c : Char}
    (hc : c ∈ (sanitize_filename t).data) : c ≠ '/' := by
  intro hcc
  have := sanitize_chars hc
  rw [hcc] at this
  simp [forbiddenChar] at this

theorem filename_no_slash {title vid : String} (hvid : vid.data.all idChar = true) :
    ∀ c ∈ (sanitize_filename title ++ "_" ++ vid ++ ".txt").data, c ≠ '/' := by
  intro c hc
  rw [String.data_append, String.data_append, String.data_append] at hc
  rcases List.mem_append.mp hc with hc | hc
  · rcases List.mem_append.mp hc with hc | hc
    · rcases List.mem_append.mp hc with hc | hc
      · exact sanitize_no_slash hc
      · intro hcc
        subst hcc
        simp at hc
    · intro hcc
      subst hcc
      have := List.all_eq_true.mp hvid _ hc
      simp [idChar, Char.isAlphanum, Char.isAlpha, Char.isDigit, Char.isUpper,
        Char.isLower] at this
  · intro hcc
    subst hcc
    simp at hc

theorem joinPath_empty_left {b : String} (hb : ∀ c ∈ b.data, c ≠ '/') :
    joinPath "" b = b := by
  unfold joinPath
  have h1 : (b.data.take 1 == ['/']) = false := by
    cases hbd : b.data with
    | nil => rfl
    | cons c t =>
      have hcne := hb c (by rw [hbd]; exact List.mem_cons_self c t)
      simp [List.take, hcne]
  rw [h1]
  simp

theorem save_transcript_success (video_url base_dir now vid : String)
    (entries : List TranscriptEntry) (info : OEmbedInfo) (st : ArchiveState)
    (hv : extract_video_id video_url = some vid) (hne : entries ≠ []) :
    save_transcript_with_timestamps video_url base_dir now (some entries) info st =
      (let md := get_video_metadata vid entries info
       let filename := sanitize_filename info.title ++ "_" ++ vid ++ ".txt"
       let playlist_filepath := joinPath base_dir filename
       let root_dir := dirname (dirname base_dir)
       let root_filepath := joinPath root_dir filename
       let content := renderTranscript md now entries
       (⟨st.writtenPaths ++ [playlist_filepath, root_filepath,
           joinPath root_dir "master_transcript_index.json",
           joinPath root_dir "root_transcripts.json"],
         st.txtWrites ++ [⟨playlist_filepath, content⟩, ⟨root_filepath, content⟩],
         some (update_master_json playlist_filepath root_dir now md
           (st.masterDoc.getD emptyMasterData)),
         some (update_root_transcripts_json root_filepath root_dir now md
           (st.rootDoc.getD emptyRootData))⟩,
        some (playlist_filepath, md))) := by
  have hE : entries.isEmpty = false := by
    cases entries with
    | nil => exact absurd rfl hne
    | cons a t => rfl
  unfold save_transcript_with_timestamps
  rw [hv]
  simp only [hE]
  rfl

theorem str_ext {s t : String} (h : s.data = t.data) : s = t := by
  cases s
  cases t
  cases h
  rfl

theorem take_one_ne_slash {b : String} (hb : ∀ c ∈ b.data, c ≠ '/') :
    (b.data.take 1 == ['/']) = false := by
  cases hbd : b.data with
  | nil => rfl
  | cons c t =>
    have hcne := hb c (by rw [hbd]; exact List.mem_cons_self c t)
    simp [List.take, hcne]

/-- C10: a successful single-video save writes the identical rendered content
to exactly two files — `base_dir/<title>_<vid>.txt` and the same filename under
`dirname(dirname(base_dir))`.  With the default `base_dir = "transcripts"`,
that second location degenerates to the bare filename (no directory
component), i.e. a file in the process's current working directory, outside
`base_dir`. -/
theorem c10_dual_write (video_url base_dir now vid : String)
    (entries : List TranscriptEntry) (info : OEmbedInfo) (st : ArchiveState)
    (hv : extract_video_id video_url = some vid) (hne : entries ≠ []) :
    (save_transcript_with_timestamps video_url base_dir now
        (some entries) info st).1.txtWrites =
      st.txtWrites ++
        [⟨joinPath base_dir (sanitize_filename info.title ++ "_" ++ vid ++ ".txt"),
          renderTranscript (get_video_metadata vid entries info) now entries⟩,
         ⟨joinPath (dirname (dirname base_dir))
            (sanitize_filename info.title ++ "_" ++ vid ++ ".txt"),
          renderTranscript (get_video_metadata vid entries info) now entries⟩] ∧
    (base_dir = "transcripts" →
      joinPath (dirname (dirname base_dir))
          (sanitize_filename info.title ++ "_" ++ vid ++ ".txt") =
        sanitize_filename info.title ++ "_" ++ vid ++ ".txt" ∧
      (∀ c ∈ (sanitize_filename info.title ++ "_" ++ vid ++ ".txt").data, c ≠ '/') ∧
      joinPath base_dir (sanitize_filename info.title ++ "_" ++ vid ++ ".txt") =
        "transcripts/" ++ (sanitize_filename info.title ++ "_" ++ vid ++ ".txt")) := by
  have hns : ∀ c ∈ (sanitize_filename info.title ++ "_" ++ vid ++ ".txt").data, c ≠ '/' :=
    filename_no_slash (extract_video_id_spec hv).2
  constructor
  · rw [save_transcript_success video_url base_dir now vid entries info st hv hne]
  · intro hb
    subst hb
    refine ⟨?_, hns, ?_⟩
    · have hdd : dirname (dirname "transcripts") = "" := rfl
      rw [hdd]
      exact joinPath_empty_left hns
    · unfold joinPath
      rw [take_one_ne_slash hns]
      simp only [if_false, Bool.false_eq_true]
      rw [if_neg (by decide)]
      apply str_ext
      show "transcripts".data ++ '/' ::
          (sanitize_filename info.title ++ "_" ++ vid ++ ".txt").data =
        ("transcripts/" ++ (sanitize_filename info.title ++ "_" ++ vid ++ ".txt")).data
      have h12 : ("transcripts/").data = "transcripts".data ++ ['/'] := by decide
      simp only [String.data_append, h12, List.append_assoc]
      rfl

/-- C10 witness: the dual-write theorem at a concrete URL, title and
transcript with the default base directory. -/
theorem c10_dual_write_witness :
    (save_transcript_with_timestamps "https://www.youtube.com/watch?v=abcdefghijk"
        "transcripts" "now" (some [⟨0, "hello"⟩]) oembedA emptyArchiveState).1.txtWrites =
      emptyArchiveState.txtWrites ++
        [⟨joinPath "transcripts" (sanitize_filename oembedA.title ++ "_" ++ "abcdefghijk" ++ ".txt"),
          renderTranscript (get_video_metadata "abcdefghijk" [⟨0, "hello"⟩] oembedA) "now"
            [⟨0, "hello"⟩]⟩,
         ⟨joinPath (dirname (dirname "transcripts"))
            (sanitize_filename oembedA.title ++ "_" ++ "abcdefghijk" ++ ".txt"),
          renderTranscript (get_video_metadata "abcdefghijk" [⟨0, "hello"⟩] oembedA) "now"
            [⟨0, "hello"⟩]⟩] ∧
    ("transcripts" = "transcripts" →
      joinPath (dirname (dirname "transcripts"))
          (sanitize_filename oembedA.title ++ "_" ++ "abcdefghijk" ++ ".txt") =
        sanitize_filename oembedA.title ++ "_" ++ "abcdefghijk" ++ ".txt" ∧
      (∀ c ∈ (sanitize_filename oembedA.title ++ "_" ++ "abcdefghijk" ++ ".txt").data,
        c ≠ '/') ∧
      joinPath "transcripts" (sanitize_filename oembedA.title ++ "_" ++ "abcdefghijk" ++ ".txt") =
        "transcripts/" ++ (sanitize_filename oembedA.title ++ "_" ++ "abcdefghijk" ++ ".txt")) :=
  c10_dual_write "https://www.youtube.com/watch?v=abcdefghijk" "transcripts" "now"
    "abcdefghijk" [⟨0, "hello"⟩] oembedA emptyArchiveState (by decide) (by decide)

theorem suffix_getLast {l1 l2 : List Char} (h : l1 <:+ l2) (hne : l1 ≠ []) :
    l2.getLast? = l1.getLast? := by
  obtain ⟨t, rfl⟩ := h
  exact List.getLast?_append_of_ne_nil t hne

theorem suffix_of_suffix_append {l t n : List Char} (h : l <:+ t ++ n)
    (hlen : l.length ≤ n.length) : l <:+ n := by
  obtain ⟨u, hu⟩ := h
  rcases List.append_eq_append_iff.mp hu with ⟨a, _, ha2⟩ | ⟨c, _, hc2⟩
  · have hz : a.length = 0 := by
      have := congrArg List.length ha2
      simp [List.length_append] at this
      omega
    rw [List.length_eq_zero.mp hz] at ha2
    simp at ha2
    exact ha2 ▸ List.suffix_refl n
  · exact ⟨c, hc2.symm⟩

theorem joinPath_data (a b : String) : ∃ t, (joinPath a b).data = t ++ b.data := by
  unfold joinPath
  split
  · exact ⟨[], rfl⟩
  · split
    · exact ⟨a.data, rfl⟩
    · refine ⟨a.data ++ ['/'], ?_⟩
      show a.data ++ '/' :: b.data = (a.data ++ ['/']) ++ b.data
      rw [List.append_assoc]
      rfl

theorem txt_not_metadata (base title vid : String) :
    strHasSuffix "_metadata.json"
      (joinPath base (sanitize_filename title ++ "_" ++ vid ++ ".txt")) = false := by
  unfold strHasSuffix
  cases hb : "_metadata.json".data.isSuffixOf
      (joinPath base (sanitize_filename title ++ "_" ++ vid ++ ".txt")).data with
  | false => rfl
  | true =>
    exfalso
    have hsfx := List.isSuffixOf_iff_suffix.mp hb
    obtain ⟨t, ht⟩ := joinPath_data base (sanitize_filename title ++ "_" ++ vid ++ ".txt")
    rw [ht] at hsfx
    have hlast := suffix_getLast hsfx (by decide)
    have hsplit : (sanitize_filename title ++ "_" ++ vid ++ ".txt").data =
        (sanitize_filename title ++ "_" ++ vid).data ++ ".txt".data :=
      String.data_append _ _
    rw [hsplit, ← List.append_assoc] at hlast
    rw [List.getLast?_append_of_ne_nil _ (by decide : (".txt".data ≠ []))] at hlast
    exact absurd hlast (by decide)

theorem json_not_metadata (base n : String)
    (hlen : "_metadata.json".data.length ≤ n.data.length)
    (hn : ("_metadata.json".data.isSuffixOf n.data) = false) :
    strHasSuffix "_metadata.json" (joinPath base n) = false := by
  unfold strHasSuffix
  cases hb : "_metadata.json".data.isSuffixOf (joinPath base n).data with
  | false => rfl
  | true =>
    exfalso
    have hsfx := List.isSuffixOf_iff_suffix.mp hb
    obtain ⟨t, ht⟩ := joinPath_data base n
    rw [ht] at hsfx
    have hsuf := suffix_of_suffix_append hsfx hlen
    have : ("_metadata.json".data.isSuffixOf n.data) = true :=
      List.isSuffixOf_iff_suffix.mpr hsuf
    rw [hn] at this
    exact Bool.false_ne_true this

/-- C4 counterexample: a concrete successful single-video save — the function
returns a result, yet none of the paths it opened for writing is a
`*_metadata.json` sidecar; no per-video metadata document is ever written. -/
theorem c4_counterexample :
    (save_transcript_with_timestamps "https://www.youtube.com/watch?v=abcdefghijk"
        "transcripts" "now" (some [⟨0, "hello"⟩]) oembedA emptyArchiveState).2.isSome = true ∧
    (save_transcript_with_timestamps "https://www.youtube.com/watch?v=abcdefghijk"
        "transcripts" "now" (some [⟨0, "hello"⟩]) oembedA
        emptyArchiveState).1.writtenPaths.all
      (fun p => !strHasSuffix "_metadata.json" p) = true := by
  refine ⟨by decide, by decide⟩

/-- C4 amended: a successful single-video save opens exactly four files for
writing — the transcript file in `base_dir`, its second copy under
`dirname(dirname(base_dir))`, and the two index documents
(`master_transcript_index.json`, `root_transcripts.json`) — before returning a
result; none of them is a per-video `*_metadata.json` sidecar, which is never
written. -/
theorem c4_single_video_writes_amended (video_url base_dir now vid : String)
    (entries : List TranscriptEntry) (info : OEmbedInfo) (st : ArchiveState)
    (hv : extract_video_id video_url = some vid) (hne : entries ≠ []) :
    (save_transcript_with_timestamps video_url base_dir now
        (some entries) info st).1.writtenPaths =
      st.writtenPaths ++
        [joinPath base_dir (sanitize_filename info.title ++ "_" ++ vid ++ ".txt"),
         joinPath (dirname (dirname base_dir))
           (sanitize_filename info.title ++ "_" ++ vid ++ ".txt"),
         joinPath (dirname (dirname base_dir)) "master_transcript_index.json",
         joinPath (dirname (dirname base_dir)) "root_transcripts.json"] ∧
    (save_transcript_with_timestamps video_url base_dir now
        (some entries) info st).2.isSome = true ∧
    ∀ p ∈ [joinPath base_dir (sanitize_filename info.title ++ "_" ++ vid ++ ".txt"),
         joinPath (dirname (dirname base_dir))
           (sanitize_filename info.title ++ "_" ++ vid ++ ".txt"),
         joinPath (dirname (dirname base_dir)) "master_transcript_index.json",
         joinPath (dirname (dirname base_dir)) "root_transcripts.json"],
      strHasSuffix "_metadata.json" p = false := by
  refine ⟨?_, ?_, ?_⟩
  · rw [save_transcript_success video_url base_dir now vid entries info st hv hne]
  · rw [save_transcript_success video_url base_dir now vid entries info st hv hne]
    rfl
  · intro p hp
    rcases List.mem_cons.mp hp with rfl | hp
    · exact txt_not_metadata base_dir info.title vid
    rcases List.mem_cons.mp hp with rfl | hp
    · exact txt_not_metadata (dirname (dirname base_dir)) info.title vid
    rcases List.mem_cons.mp hp with rfl | hp
    · exact json_not_metadata _ "master_transcript_index.json" (by decide) (by decide)
    rcases List.mem_cons.mp hp with rfl | hp
    · exact json_not_metadata _ "root_transcripts.json" (by decide) (by decide)
    exact absurd hp (List.not_mem_nil p)

/-- C4 witness: the amended theorem applied at a concrete successful save. -/
theorem c4_amended_witness :
    (save_transcript_with_timestamps "https://www.youtube.com/watch?v=abcdefghijk"
        "transcripts" "now" (some [⟨0, "hello"⟩]) oembedA emptyArchiveState).1.writtenPaths =
      emptyArchiveState.writtenPaths ++
        [joinPath "transcripts" (sanitize_filename oembedA.title ++ "_" ++ "abcdefghijk" ++ ".txt"),
         joinPath (dirname (dirname "transcripts"))
           (sanitize_filename oembedA.title ++ "_" ++ "abcdefghijk" ++ ".txt"),
         joinPath (dirname (dirname "transcripts")) "master_transcript_index.json",
         joinPath (dirname (dirname "transcripts")) "root_transcripts.json"] ∧
    (save_transcript_with_timestamps "https://www.youtube.com/watch?v=abcdefghijk"
        "transcripts" "now" (some [⟨0, "hello"⟩]) oembedA emptyArchiveState).2.isSome = true ∧
    ∀ p ∈ [joinPath "transcripts" (sanitize_filename oembedA.title ++ "_" ++ "abcdefghijk" ++ ".txt"),
         joinPath (dirname (dirname "transcripts"))
           (sanitize_filename oembedA.title ++ "_" ++ "abcdefghijk" ++ ".txt"),
         joinPath (dirname (dirname "transcripts")) "master_transcript_index.json",
         joinPath (dirname (dirname "transcripts")) "root_transcripts.json"],
      strHasSuffix "_metadata.json" p = false :=
  c4_single_video_writes_amended "https://www.youtube.com/watch?v=abcdefghijk" "transcripts"
    "now" "abcdefghijk" [⟨0, "hello"⟩] oembedA emptyArchiveState (by decide) (by decide)

/-! ## Error propagation -/

/-- C9 counterexample: a filesystem write failure during an index update is
swallowed by the `try/except` blocks — both index mutators report success
(`.ok ()`) even when the write of the updated document fails. -/
theorem c9_counterexample :
    update_master_json_run (.ok none) (fun _ => .error "disk full")
      "b/f.txt" "b" "t" mdA = .ok () ∧
    update_root_transcripts_json_run (.ok none) (fun _ => .error "disk full")
      "b/f.txt" "b" "t" mdA = .ok () :=
  ⟨rfl, rfl⟩

/-- C9 amended: filesystem failures during the transcript-file writes of
`save_transcript_with_timestamps` propagate to the caller (the two `open`
calls have no handler), but failures while loading or writing an index
document inside `update_master_json` / `update_root_transcripts_json` are
caught by their `try/except Exception` blocks and never propagate — those
functions always return normally. -/
theorem c9_error_propagation_amended :
    (∀ (w : String → String → Except String Unit) (p r c e : String),
      w p c = .error e → write_transcript_files w p r c = .error e) ∧
    (∀ (loadRes : Except String (Option MasterData))
        (writeRes : MasterData → Except String Unit) (tp bd now : String) (md : Metadata),
      update_master_json_run loadRes writeRes tp bd now md = .ok ()) ∧
    (∀ (loadRes : Except String (Option RootData))
        (writeRes : RootData → Except String Unit) (tp bd now : String) (md : Metadata),
      update_root_transcripts_json_run loadRes writeRes tp bd now md = .ok ()) := by
  refine ⟨?_, ?_, ?_⟩
  · intro w p r c e h
    unfold write_transcript_files
    rw [h]
  · intro loadRes writeRes tp bd now md
    unfold update_master_json_run
    cases loadRes with
    | error e => rfl
    | ok existing =>
      cases hw : writeRes (update_master_json tp bd now md (existing.getD emptyMasterData)) with
      | ok u => simp only [hw]
      | error e => simp only [hw]
  · intro loadRes writeRes tp bd now md
    unfold update_root_transcripts_json_run
    cases loadRes with
    | error e => rfl
    | ok existing =>
      cases hw : writeRes (update_root_transcripts_json tp bd now md
          (existing.getD emptyRootData)) with
      | ok u => simp only [hw]
      | error e => simp only [hw]

/-- C9 witness: transcript-file write propagation applied at a concrete
always-failing writer. -/
theorem c9_amended_witness :
    write_transcript_files (fun _ _ => .error "boom") "a.txt" "b.txt" "content" =
      .error "boom" :=
  c9_error_propagation_amended.1 (fun _ _ => .error "boom") "a.txt" "b.txt" "content"
    "boom" rfl
